import Mathlib

/-!
Verification of the bit-packing codec in `cupy/_binary/packing.py`.

The file embeds, as executable Lean functions:
  * the four elementwise kernels (`cupy_packbits_big`, `cupy_packbits_little`,
    `cupy_unpackbits_big`, `cupy_unpackbits_little`) and the mode dispatch
    performed by the `_packbits_kernel` / `_unpackbits_kernel` dicts,
  * the buffer-level transforms `pack` and `unpack` they induce
    (output sizes taken from lines 56-59 and 97-98 of the source), and
  * the Python entry points `packbits` and `unpackbits`, statement by
    statement, including local-name resolution inside `packbits` (whose
    parameter is named `a` while its body reads the local `myarray`).
-/

namespace Packing

/-- Python exception classes that `packing.py` can raise.  `nameError`
stands for `NameError` together with its subclass `UnboundLocalError`
(raised when a local variable is read before its first assignment). -/
inductive PyErr where
  | typeError : PyErr
  | valueError : PyErr
  | nameError : PyErr
deriving DecidableEq

/-- A NumPy/CuPy dtype, reduced to the two fields `packing.py` inspects:
the kind character ('b' bool, 'i' signed integer, 'u' unsigned integer,
'f' float, 'c' complex) and the item size in bytes. -/
structure Dtype where
  kind : Char
  itemsize : Nat
deriving DecidableEq

/-- The dtype `cupy.uint8`: unsigned integer of one byte. -/
def uint8 : Dtype := ⟨'u', 1⟩

/-- A device array as seen by `packing.py`: its shape, its dtype, and the
flat element buffer in row-major (C) order.  Stored values are the raw
element values; for a `uint8` array each entry is a byte. -/
structure Ndarray where
  shape : List Nat
  dtype : Dtype
  data : List Nat
deriving DecidableEq

/-- Total number of elements, as `cupy.ndarray.size`: the product of the
shape entries. -/
def Ndarray.size (a : Ndarray) : Nat := a.shape.prod

/-- The two keys of the `_packbits_kernel` and `_unpackbits_kernel` dicts. -/
inductive BitOrder where
  | big : BitOrder
  | little : BitOrder
deriving DecidableEq

/-- Output byte `i` of the ElementwiseKernel named `cupy_packbits_big`:
the C loop `for j in 0..8 { k = i*8 + j; bit = (k < myarray_size &&
myarray[k] != 0); packed |= bit << (7 - j); }`, starting from the zero
byte allocated by `cupy.zeros`.  `bit` is the 0/1 value of the C `&&`.
Every intermediate value stays below `2 ^ 8` (each shifted bit is at most
`2 ^ 7`), so the store into the `uint8` output never truncates. -/
def cupy_packbits_big (myarray : List Int) (myarray_size : Nat) (i : Nat) : Nat :=
  (List.range 8).foldl
    (fun packed j =>
      let k := i * 8 + j
      let bit : Nat := (decide (k < myarray_size) && decide (myarray.getD k 0 ≠ 0)).toNat
      packed ||| (bit <<< (7 - j)))
    0

/-- Output byte `i` of the ElementwiseKernel named `cupy_packbits_little`:
same loop as `cupy_packbits_big` with `packed |= bit << j`. -/
def cupy_packbits_little (myarray : List Int) (myarray_size : Nat) (i : Nat) : Nat :=
  (List.range 8).foldl
    (fun packed j =>
      let k := i * 8 + j
      let bit : Nat := (decide (k < myarray_size) && decide (myarray.getD k 0 ≠ 0)).toNat
      packed ||| (bit <<< j))
    0

/-- The `_packbits_kernel` dict: mode-indexed dispatch to the two packing
kernels. -/
def _packbits_kernel (bitorder : BitOrder) (myarray : List Int)
    (myarray_size i : Nat) : Nat :=
  match bitorder with
  | .big => cupy_packbits_big myarray myarray_size i
  | .little => cupy_packbits_little myarray myarray_size i

/-- Output element `i` of the ElementwiseKernel named `cupy_unpackbits_big`:
`unpacked = (myarray[i / 8] >> (7 - i % 8)) & 1`. -/
def cupy_unpackbits_big (myarray : List Nat) (i : Nat) : Nat :=
  (myarray.getD (i / 8) 0 >>> (7 - i % 8)) &&& 1

/-- Output element `i` of the ElementwiseKernel named
`cupy_unpackbits_little`: `unpacked = (myarray[i / 8] >> (i % 8)) & 1`. -/
def cupy_unpackbits_little (myarray : List Nat) (i : Nat) : Nat :=
  (myarray.getD (i / 8) 0 >>> (i % 8)) &&& 1

/-- The `_unpackbits_kernel` dict: mode-indexed dispatch to the two
unpacking kernels. -/
def _unpackbits_kernel (bitorder : BitOrder) (myarray : List Nat) (i : Nat) : Nat :=
  match bitorder with
  | .big => cupy_unpackbits_big myarray i
  | .little => cupy_unpackbits_little myarray i

/-- The packing computation of `packbits` (source lines 56-59) on a flat
buffer: a raveled input of `n` elements is packed into
`packed_size = (n + 7) // 8` bytes, byte `i` computed by the selected
kernel over the zero-initialised output of `cupy.zeros`. -/
def pack (myarray : List Int) (bitorder : BitOrder) : List Nat :=
  let packed_size := (myarray.length + 7) / 8
  (List.range packed_size).map (_packbits_kernel bitorder myarray myarray.length)

/-- The unpacking computation of `unpackbits` (source lines 97-98) on a
flat buffer of `m` bytes: the output has `m * 8` elements, element `i`
computed by the selected kernel. -/
def unpack (myarray : List Nat) (bitorder : BitOrder) : List Nat :=
  (List.range (myarray.length * 8)).map (_unpackbits_kernel bitorder myarray)

/-- The entry point `packbits(a, axis=None, bitorder='big')`, embedded
statement by statement.  The signature binds the parameter `a`, but every
statement of the body reads the name `myarray`; because `myarray` is
assigned at line 56, Python treats it as a local variable of the whole
function body, so the very first read (line 49, the dtype check) resolves
`myarray` against the local environment, finds it unbound, and raises
`UnboundLocalError` (a subclass of `NameError`).  Local-name resolution is
modelled explicitly: the environment of array-valued locals bound at entry
contains only `a`. -/
def packbits (a : Ndarray) (axis : Option Nat) (bitorder : String) :
    Except PyErr Ndarray :=
  let boundLocals : List (String × Ndarray) := [("a", a)]
  match boundLocals.lookup ("myarray") with
  | none => Except.error PyErr.nameError
  | some myarray =>
      if ¬ (myarray.dtype.kind ∈ ['b', 'i', 'u']) then
        Except.error PyErr.typeError
      else if ¬ (bitorder ∈ ["big", "little"]) then
        Except.error PyErr.valueError
      else
        let mode := if bitorder = "big" then BitOrder.big else BitOrder.little
        let packed_size := (myarray.size + 7) / 8
        Except.ok
          { shape := [packed_size], dtype := uint8,
            data := (List.range packed_size).map
              (_packbits_kernel mode (myarray.data.map Int.ofNat) myarray.size) }

/-- The entry point `unpackbits(myarray, bitorder='big')`, embedded
statement by statement: dtype check, bitorder check, allocation of a
one-dimensional `uint8` output of `myarray.size * 8` elements, and the
kernel filling every output index from the flat input buffer. -/
def unpackbits (myarray : Ndarray) (bitorder : String) :
    Except PyErr Ndarray :=
  if myarray.dtype ≠ uint8 then
    Except.error PyErr.typeError
  else if ¬ (bitorder ∈ ["big", "little"]) then
    Except.error PyErr.valueError
  else
    let mode := if bitorder = "big" then BitOrder.big else BitOrder.little
    Except.ok
      { shape := [myarray.size * 8], dtype := uint8,
        data := (List.range (myarray.size * 8)).map
          (_unpackbits_kernel mode myarray.data) }

/-- Shared bit-order policy (spec section 4.3), used only to state the
claims: logical bit `j` of a byte lives at physical position `7 - j` in
`big` mode and at position `j` in `little` mode. -/
def physPos (mode : BitOrder) (j : Nat) : Nat :=
  match mode with
  | .big => 7 - j
  | .little => j

/-- A one-element float64 array (dtype kind 'f'). -/
def floatArr : Ndarray := { shape := [1], dtype := ⟨'f', 8⟩, data := [0] }

/-- A two-element signed-integer array (dtype kind 'i'). -/
def intArr : Ndarray := { shape := [2], dtype := ⟨'i', 8⟩, data := [1, 0] }

/-- A one-element `uint8` array. -/
def byteArr : Ndarray := { shape := [1], dtype := uint8, data := [5] }

/-- An empty signed-integer array. -/
def emptyIntArr : Ndarray := { shape := [0], dtype := ⟨'i', 8⟩, data := [] }

/-- A bit of `b.toNat <<< s` (with `b : Bool`) is set exactly at position
`s`, and only when `b` is true. -/
theorem testBit_toNat_shiftLeft (b : Bool) (s p : Nat) :
    Nat.testBit (b.toNat <<< s) p = (b && decide (p = s)) := by
  cases b
  · simp
  · simp only [Bool.toNat_true, Nat.one_shiftLeft, Nat.testBit_two_pow, Bool.true_and]
    simp [eq_comm]

/-- Only bit 0 of `b.toNat` can be set, and it equals `b`. -/
theorem testBit_toNat (b : Bool) (p : Nat) :
    b.toNat.testBit p = (b && decide (p = 0)) := by
  have h := testBit_toNat_shiftLeft b 0 p
  simpa using h

/-- The parity test `b.toNat % 2 = 1` recovers `b`. -/
theorem decide_toNat_mod_two (b : Bool) : decide (b.toNat % 2 = 1) = b := by
  cases b <;> rfl

/-- Logical-to-physical bit layout of the packing kernels: for any logical
offset `j < 8`, the bit of output byte `i` at physical position
`physPos mode j` is set exactly when input element `i * 8 + j` exists and
is non-zero. -/
theorem packbits_kernel_testBit (mode : BitOrder) (x : List Int) (n i j : Nat)
    (hj : j < 8) :
    Nat.testBit (_packbits_kernel mode x n i) (physPos mode j)
      = (decide (i * 8 + j < n) && decide (x.getD (i * 8 + j) 0 ≠ 0)) := by
  have hrange : List.range 8 = [0, 1, 2, 3, 4, 5, 6, 7] := rfl
  cases mode <;>
    simp only [_packbits_kernel, cupy_packbits_big, cupy_packbits_little, physPos,
      hrange, List.foldl_cons, List.foldl_nil] <;>
    interval_cases j <;>
    simp [Nat.testBit_or, testBit_toNat_shiftLeft, testBit_toNat, decide_toNat_mod_two]

/-- Reading index `k` of a table built over `List.range L` gives the table
entry at `k`. -/
theorem getD_range_map (f : Nat → Nat) (L k : Nat) (hk : k < L) :
    ((List.range L).map f).getD k 0 = f k := by
  simp [List.getD_eq_getElem?_getD, List.getElem?_map, List.getElem?_range, hk]

/-- The packed buffer has `(n + 7) / 8` bytes. -/
theorem pack_length (x : List Int) (mode : BitOrder) :
    (pack x mode).length = (x.length + 7) / 8 := by
  simp [pack]

/-- The unpacked buffer has `m * 8` elements. -/
theorem unpack_length (y : List Nat) (mode : BitOrder) :
    (unpack y mode).length = y.length * 8 := by
  simp [unpack]

/-- Byte `i` of the packed buffer is the kernel value, for `i` in range. -/
theorem pack_getD (x : List Int) (mode : BitOrder) (i : Nat)
    (hi : i < (x.length + 7) / 8) :
    (pack x mode).getD i 0 = _packbits_kernel mode x x.length i := by
  simpa [pack] using getD_range_map (_packbits_kernel mode x x.length) _ i hi

/-- Element `i` of the unpacked buffer is the kernel value, for `i` in
range. -/
theorem unpack_getD (y : List Nat) (mode : BitOrder) (i : Nat)
    (hi : i < y.length * 8) :
    (unpack y mode).getD i 0 = _unpackbits_kernel mode y i := by
  simpa [unpack] using getD_range_map (_unpackbits_kernel mode y) _ i hi

/-- Shifting then masking with 1 is the bit test. -/
theorem shiftRight_and_one (b s : Nat) :
    (b >>> s) &&& 1 = (b.testBit s).toNat := by
  rw [Nat.and_one_is_mod, Nat.testBit_to_div_mod, Nat.shiftRight_eq_div_pow]
  rcases Nat.mod_two_eq_zero_or_one (b / 2 ^ s) with h | h <;> rw [h] <;> rfl

/-- The unpacking kernels extract the bit at the physical position given
by the shared bit-order policy. -/
theorem unpackbits_kernel_eq_testBit (mode : BitOrder) (y : List Nat) (i : Nat) :
    _unpackbits_kernel mode y i
      = ((y.getD (i / 8) 0).testBit (physPos mode (i % 8))).toNat := by
  cases mode <;>
    simp only [_unpackbits_kernel, cupy_unpackbits_big, cupy_unpackbits_little,
      physPos] <;>
    rw [shiftRight_and_one]

/-- Round trip through the kernels: element `k` of
`unpack (pack x mode) mode` is 1 exactly when `x` has a non-zero element
at index `k`, and 0 otherwise — in particular the padding positions
`k ≥ x.length` of the final byte unpack to 0. -/
theorem unpack_pack_getD (x : List Int) (mode : BitOrder) (k : Nat)
    (hk : k < 8 * ((x.length + 7) / 8)) :
    (unpack (pack x mode) mode).getD k 0
      = if k < x.length ∧ x.getD k 0 ≠ 0 then 1 else 0 := by
  have hkL : k < (pack x mode).length * 8 := by
    rw [pack_length]; omega
  have hq : k / 8 < (x.length + 7) / 8 := by omega
  rw [unpack_getD _ _ _ hkL, unpackbits_kernel_eq_testBit,
    pack_getD _ _ _ hq,
    packbits_kernel_testBit mode x x.length (k / 8) (k % 8) (Nat.mod_lt _ (by omega))]
  have hsplit : k / 8 * 8 + k % 8 = k := by omega
  rw [hsplit]
  generalize x.getD k 0 = v
  by_cases h1 : k < x.length
  · by_cases h2 : v = 0
    · simp [h1, h2]
    · simp [h1, h2]
  · simp [h1]

/-- Reading past the end of a buffer gives the default. -/
theorem getD_out_of_range (l : List Nat) (i : Nat) (h : l.length ≤ i) :
    l.getD i 0 = 0 := by
  simp [List.getD_eq_getElem?_getD, List.getElem?_eq_none h]

/-- Claim C1: for every sequence of truthy/falsy elements whose length is
a multiple of 8 and each bit-order mode, unpacking the packed result with
the same mode recovers the truth value of every element: unpacked element
`k` is 1 when element `k` is non-zero and 0 otherwise, for all
`k < x.length`. -/
theorem roundtrip_exact (x : List Int) (mode : BitOrder)
    (hlen : x.length % 8 = 0) (k : Nat) (hk : k < x.length) :
    (unpack (pack x mode) mode).getD k 0
      = if x.getD k 0 ≠ 0 then 1 else 0 := by
  have h := unpack_pack_getD x mode k (by omega)
  rw [h]
  simp [hk]

/-- Concrete instance of the C1 round trip: index 7 of an 8-element input
whose last element is the non-zero value -3. -/
theorem roundtrip_exact_witness :
    (unpack (pack [1, 0, 2, 0, 0, 0, 0, -3] BitOrder.big) BitOrder.big).getD 7 0
      = 1 := by
  have h := roundtrip_exact [1, 0, 2, 0, 0, 0, 0, -3] BitOrder.big (by decide) 7
    (by decide)
  rw [h]
  decide

/-- Claim C2: layout of each packed byte.  For every input, mode, byte
index `i` and logical offset `j < 8`, the bit of output byte `i` at
physical position `7 - j` (big) or `j` (little) is set exactly when input
element `i * 8 + j` exists and is non-zero — in particular every bit whose
logical index reaches past the input is 0 — and the two concrete examples
of the spec hold. -/
theorem pack_bit_layout :
    (∀ (x : List Int) (mode : BitOrder) (i j : Nat), j < 8 →
        Nat.testBit ((pack x mode).getD i 0) (physPos mode j)
          = (decide (i * 8 + j < x.length)
              && decide (x.getD (i * 8 + j) 0 ≠ 0)))
    ∧ pack [1, 0, 0, 0, 0, 0, 0, 0] BitOrder.big = [128]
    ∧ pack [1, 0, 0, 0, 0, 0, 0, 0] BitOrder.little = [1] := by
  refine ⟨?_, by decide, by decide⟩
  intro x mode i j hj
  by_cases hi : i < (x.length + 7) / 8
  · rw [pack_getD _ _ _ hi, packbits_kernel_testBit _ _ _ _ _ hj]
  · have hout : (pack x mode).getD i 0 = 0 := by
      apply getD_out_of_range
      rw [pack_length]
      omega
    have hpast : ¬ (i * 8 + j < x.length) := by omega
    rw [hout]
    simp [hpast]

/-- Concrete instance of the C2 bit layout at byte 0, offset 0. -/
theorem pack_bit_layout_witness :
    Nat.testBit ((pack [1, 0, 0, 0, 0, 0, 0, 0] BitOrder.big).getD 0 0)
        (physPos BitOrder.big 0)
      = (decide (0 * 8 + 0 < ([1, 0, 0, 0, 0, 0, 0, 0] : List Int).length)
          && decide (([1, 0, 0, 0, 0, 0, 0, 0] : List Int).getD (0 * 8 + 0) 0 ≠ 0)) :=
  pack_bit_layout.1 [1, 0, 0, 0, 0, 0, 0, 0] BitOrder.big 0 0 (by decide)

/-- Claim C3: each unpacked element is the selected bit of its source
byte.  For every byte buffer, mode and `i < 8 * m`, element `i` of the
unpacked output equals bit `7 - (i % 8)` (big) or `i % 8` (little) of byte
`i / 8`; every output element is 0 or 1; the spec examples hold. -/
theorem unpack_bit_extraction :
    (∀ (y : List Nat) (mode : BitOrder) (i : Nat), i < 8 * y.length →
        (unpack y mode).getD i 0
          = ((y.getD (i / 8) 0).testBit (physPos mode (i % 8))).toNat)
    ∧ (∀ (y : List Nat) (mode : BitOrder), ∀ v ∈ unpack y mode, v = 0 ∨ v = 1)
    ∧ unpack [0b10110000] BitOrder.big = [1, 0, 1, 1, 0, 0, 0, 0]
    ∧ unpack [0b00000101] BitOrder.little = [1, 0, 1, 0, 0, 0, 0, 0] := by
  refine ⟨?_, ?_, by decide, by decide⟩
  · intro y mode i hi
    rw [unpack_getD _ _ _ (by omega), unpackbits_kernel_eq_testBit]
  · intro y mode v hv
    simp only [unpack] at hv
    rcases List.mem_map.1 hv with ⟨i, _, rfl⟩
    rw [unpackbits_kernel_eq_testBit]
    cases (y.getD (i / 8) 0).testBit (physPos mode (i % 8)) <;> simp

/-- Concrete instance of the C3 extraction at output index 2. -/
theorem unpack_bit_extraction_witness :
    (unpack [0b10110000] BitOrder.big).getD 2 0
      = ((([0b10110000] : List Nat).getD (2 / 8) 0).testBit
          (physPos BitOrder.big (2 % 8))).toNat :=
  unpack_bit_extraction.1 [0b10110000] BitOrder.big 2 (by decide)

/-- Claim C4: output sizes.  Packing `n` elements yields exactly
`⌈n / 8⌉` bytes, and unpacking `m` bytes yields exactly `8 * m` elements,
for either mode. -/
theorem pack_unpack_lengths :
    (∀ (x : List Int) (mode : BitOrder), (pack x mode).length = x.length ⌈/⌉ 8)
    ∧ ∀ (y : List Nat) (mode : BitOrder), (unpack y mode).length = 8 * y.length := by
  constructor
  · intro x mode
    rw [pack_length, Nat.ceilDiv_eq_add_pred_div]
    omega
  · intro y mode
    rw [unpack_length]
    omega

/-- Claim C5: packing a length that is not a multiple of 8 zero-fills the
final byte, and the round trip yields the original truth values followed
by zeros: the unpacked buffer has length `8 * ⌈n / 8⌉`, positions `k < n`
carry the truth value of element `k`, and the remaining
`8 * ⌈n / 8⌉ - n` positions carry 0. -/
theorem roundtrip_partial_byte (x : List Int) (mode : BitOrder)
    (hlen : x.length % 8 ≠ 0) :
    (unpack (pack x mode) mode).length = 8 * ((x.length + 7) / 8)
    ∧ ∀ k, k < 8 * ((x.length + 7) / 8) →
        (unpack (pack x mode) mode).getD k 0
          = if k < x.length then (if x.getD k 0 ≠ 0 then 1 else 0) else 0 := by
  refine ⟨by rw [unpack_length, pack_length]; omega, ?_⟩
  intro k hk
  rw [unpack_pack_getD x mode k hk]
  by_cases h1 : k < x.length
  · by_cases h2 : x.getD k 0 ≠ 0 <;> simp [h1, h2]
  · simp [h1]

/-- Concrete instance of the C5 round trip on a 10-element input: 16
unpacked elements, and padding position 12 unpacks to 0. -/
theorem roundtrip_partial_byte_witness :
    (unpack (pack [1, 1, 0, 1, 0, 0, 0, 0, 1, 1] BitOrder.big) BitOrder.big).length
        = 16
    ∧ (unpack (pack [1, 1, 0, 1, 0, 0, 0, 0, 1, 1] BitOrder.big) BitOrder.big).getD
        12 0 = 0 := by
  have h := roundtrip_partial_byte [1, 1, 0, 1, 0, 0, 0, 0, 1, 1] BitOrder.big
    (by decide)
  have h2 := h.2 12 (by decide)
  constructor
  · rw [h.1]
    decide
  · rw [h2]
    decide

/-- Claim C6 (the packbits half is a code bug): on a float input,
`packbits` is documented to raise the invalid-input-type error before any
element is processed, but the call dies on the unbound local `myarray`
before the dtype check can run.  The `unpackbits` half of the claim holds:
a non-`uint8` input is rejected with the type error before any output is
built. -/
theorem packbits_float_dtype_check_unreachable :
    packbits floatArr none "big" = Except.error PyErr.nameError
    ∧ unpackbits floatArr "big" = Except.error PyErr.typeError :=
  ⟨rfl, rfl⟩

/-- Claim C7 (the packbits half is a code bug): with a `bitorder` outside
big/little, `unpackbits` raises the invalid-configuration error before
building any output, as claimed, but `packbits` dies on the unbound local
`myarray` before its bitorder check can run. -/
theorem packbits_bitorder_check_unreachable :
    packbits intArr none "native" = Except.error PyErr.nameError
    ∧ unpackbits byteArr "native" = Except.error PyErr.valueError :=
  ⟨rfl, rfl⟩

/-- Claim C8 (code bug): packing an empty array of a valid integer dtype
is documented to succeed with an empty result — and the packing
computation itself does produce the empty buffer, in either mode — but the
`packbits` entry point dies on the unbound local `myarray`, so the call
raises instead of returning an empty output. -/
theorem packbits_empty_input_errors :
    packbits emptyIntArr none "big" = Except.error PyErr.nameError
    ∧ pack ([] : List Int) BitOrder.big = []
    ∧ pack ([] : List Int) BitOrder.little = [] :=
  ⟨rfl, rfl, rfl⟩

/-- Claim C9: every call to `packbits`, whatever its arguments, fails with
the unbound-name error before any dtype validation, bitorder validation,
or packing is performed: the body only reads the local name `myarray`,
which is never bound, since the parameter is named `a`. -/
theorem packbits_always_nameError (a : Ndarray) (axis : Option Nat)
    (bitorder : String) :
    packbits a axis bitorder = Except.error PyErr.nameError := rfl

/-- Claim C10: `unpackbits` on a `uint8` array of any shape whose flat
row-major buffer matches its size returns a one-dimensional `uint8` array
of exactly `8 * size` elements, each 0 or 1, equal to unpacking the flat
buffer; the output dtype is always `uint8` (the function takes no
output-dtype argument). -/
theorem unpackbits_output (a : Ndarray) (bitorder : String)
    (hdt : a.dtype = uint8) (hbuf : a.data.length = a.size)
    (hbo : bitorder = "big" ∨ bitorder = "little") :
    ∃ r : Ndarray, unpackbits a bitorder = Except.ok r
      ∧ r.shape = [a.size * 8]
      ∧ r.dtype = uint8
      ∧ r.data.length = 8 * a.size
      ∧ (∀ v ∈ r.data, v = 0 ∨ v = 1)
      ∧ r.data = unpack a.data
          (if bitorder = "big" then BitOrder.big else BitOrder.little) := by
  have hmem : bitorder ∈ ["big", "little"] := by
    rcases hbo with h | h <;> simp [h]
  have hstep : unpackbits a bitorder
      = Except.ok
          { shape := [a.size * 8], dtype := uint8,
            data := (List.range (a.size * 8)).map
              (_unpackbits_kernel
                (if bitorder = "big" then BitOrder.big else BitOrder.little)
                a.data) } := by
    simp only [unpackbits]
    rw [if_neg (by simp [hdt]), if_neg (by simp [hmem])]
  refine ⟨_, hstep, rfl, rfl, ?_, ?_, ?_⟩
  · simp [Nat.mul_comm]
  · intro v hv
    rcases List.mem_map.1 hv with ⟨i, _, rfl⟩
    rw [unpackbits_kernel_eq_testBit]
    cases (a.data.getD (i / 8) 0).testBit
      (physPos (if bitorder = "big" then BitOrder.big else BitOrder.little)
        (i % 8)) <;> simp
  · simp only [unpack, hbuf]

/-- Concrete instance of C10 on a two-dimensional `uint8` input of shape
2 by 1. -/
theorem unpackbits_output_witness :
    ∃ r : Ndarray,
      unpackbits { shape := [2, 1], dtype := uint8, data := [176, 1] } "big"
          = Except.ok r
      ∧ r.shape = [16] ∧ r.dtype = uint8 ∧ r.data.length = 16 := by
  obtain ⟨r, h1, h2, h3, h4, h5, h6⟩ :=
    unpackbits_output { shape := [2, 1], dtype := uint8, data := [176, 1] } "big"
      rfl (by decide) (Or.inl rfl)
  refine ⟨r, h1, ?_, h3, ?_⟩
  · rw [h2]
    decide
  · rw [h4]
    decide

end Packing
